import Mathlib

/-!
Verification of the P⁶ parameter-study tool (`src/p6.py`) against its
natural-language specification.

The numeric type of the embedding is `ℚ`: the Python code computes with IEEE
doubles, but every claim under study is about the exact arithmetic structure of
the code (which integer indices are produced, which values are multiplied), so
the embedding uses exact rationals and models Python's `int()` truncation and
`range()` exactly.

Python runtime behaviour that the claims depend on is modelled explicitly:
* `int(x)` truncates toward zero (`pyInt`);
* `range(a, b)` is the half-open integer interval (`pyRange`);
* `x / 0` raises `ZeroDivisionError`;
* attribute access on an object that lacks the attribute raises
  `AttributeError`: the `EXIT` enum has no member `NO_MAIN` (its members are
  `OK`, `NO_MODULE_NAMED_Y`, `NO_MAIN_IN_MODULE`, `WRITE_IN_THREAD_FAILED`),
  and `IOError` (an alias of `OSError`) instances have no attribute `msg`;
* `future.result()` re-raises the exception of a failed invocation; an
  exception raised inside a `Future` done-callback is logged and ignored by
  the executor, so the rest of the callback body is skipped and no further
  task is submitted; an exception raised inside a thread-pool task is
  captured in the task's future and, when that future is never inspected
  (p6 discards them), silently dropped;
* the serialisation of one `(state, result)` pair to a text line
  (`" ".join(f"{p:.6}" ...)`) is kept abstract: the model records which
  `(state, result)` pairs were appended to the output file, which is the
  granularity every claim speaks at.
-/

deriving instance DecidableEq for Except

/-- Exceptions of the Python runtime that the modelled code paths can raise.
`targetError` stands for an arbitrary exception raised by the user-supplied
target function. -/
inductive PyExc where
  | zeroDivisionError
  | attributeError
  | targetError
deriving DecidableEq, Repr

/-- Python `int(q)`: truncation toward zero. On a rational `q` this is
truncating division of the numerator by the (positive) denominator. -/
def pyInt (q : ℚ) : ℤ :=
  q.num.tdiv q.den

/-- Python `range(a, b)` as a list of integers: `[a, a+1, …, b-1]`,
empty when `b ≤ a`. -/
def pyRange (a b : ℤ) : List ℤ :=
  (List.range (b - a).toNat).map (fun (i : ℕ) => a + (i : ℤ))

/-- Embedding of `float_range` (p6.py lines 55–57):

    def float_range(start, stop, step):
        "inclusive range from <start> to <stop> in <step>"
        return [x * step for x in range(int(start/step), int(stop/step)+1)]

With `step = 0` the division `start/step` raises `ZeroDivisionError`;
otherwise the call returns the list comprehension. There is no validation of
`step > 0` or `start <= stop` anywhere in the function. -/
def float_range (start stop step : ℚ) : Except PyExc (List ℚ) :=
  if step = 0 then .error .zeroDivisionError
  else .ok ((pyRange (pyInt (start / step)) (pyInt (stop / step) + 1)).map
      (fun (x : ℤ) => (x : ℚ) * step))

/-- Embedding of `itertools.product` on a list of axis value lists: the
Cartesian product in standard product order, the last axis iterating
fastest. `pyProduct [] = [[]]` matches `product()` yielding one empty
tuple. -/
def pyProduct : List (List ℚ) → List (List ℚ)
  | [] => [[]]
  | xs :: rest => xs.flatMap (fun x => (pyProduct rest).map (fun t => x :: t))

/-- The `for cs in compressed_space: space.append(float_range(*cs))` loop of
`yield_parameter_space`: expand each triple in declaration order; an
exception raised by any expansion propagates. -/
def expand_axes : List (ℚ × ℚ × ℚ) → Except PyExc (List (List ℚ))
  | [] => .ok []
  | a :: rest => do
    let r ← float_range a.1 a.2.1 a.2.2
    let rs ← expand_axes rest
    return r :: rs

/-- Embedding of `yield_parameter_space` (p6.py lines 59–67): expand every
`(start, stop, step)` triple of the ordered argument mapping through
`float_range`, then take the `itertools.product` of the expanded axes. -/
def yield_parameter_space (axes : List (ℚ × ℚ × ℚ)) :
    Except PyExc (List (List ℚ)) := do
  let space ← expand_axes axes
  return pyProduct space

/-- One line of the output file, at the granularity the claims speak at: the
parameter tuple and the result that `save` serialises into the line. -/
structure ResultRecord where
  state : List ℚ
  result : ℚ
deriving DecidableEq, Repr

/-- The shared output file handle `fp`. `writeFails` models whether
`fp.write` raises `IOError` (e.g. the descriptor went bad); `lines` is the
sequence of records appended so far. -/
structure FileHandle where
  writeFails : Bool
  lines : List ResultRecord
deriving DecidableEq, Repr

/-- Attribute `msg` of a caught `IOError`: `IOError` is an alias of
`OSError`, which has no attribute `msg` (its fields are `errno`, `strerror`,
`filename`, …), so the lookup `e.msg` raises `AttributeError`. -/
def IOError_msg : Option String :=
  none

/-- The `EXIT` enum (p6.py lines 30–34) with its four members. -/
inductive EXIT where
  | OK
  | NO_MODULE_NAMED_Y
  | NO_MAIN_IN_MODULE
  | WRITE_IN_THREAD_FAILED
deriving DecidableEq, Repr

/-- Numeric value of each `EXIT` member, used as the process exit code. -/
def EXIT.value : EXIT → Nat
  | .OK => 0
  | .NO_MODULE_NAMED_Y => 1
  | .NO_MAIN_IN_MODULE => 2
  | .WRITE_IN_THREAD_FAILED => 7

/-- Python attribute lookup on the `EXIT` enum class: the four declared
members resolve, every other name raises `AttributeError`. -/
def EXIT.attr (s : String) : Option EXIT :=
  if s = "OK" then some .OK
  else if s = "NO_MODULE_NAMED_Y" then some .NO_MODULE_NAMED_Y
  else if s = "NO_MAIN_IN_MODULE" then some .NO_MAIN_IN_MODULE
  else if s = "WRITE_IN_THREAD_FAILED" then some .WRITE_IN_THREAD_FAILED
  else none

/-- Embedding of `save` (p6.py lines 69–77):

    def save(state, result, fp):
        line = " ".join([f"{p:.6}" for p in state]) + f" {result:.6}\n"
        try:
            fp.write(line)
        except IOError as e:
            print(e.msg)
            print("Thread failed to write... ")
            return EXIT.WRITE_IN_THREAD_FAILED

When the write succeeds the record is appended and the function returns
`None` (modelled as `none`). When `fp.write` raises `IOError`, the handler
first evaluates `e.msg` — an attribute `OSError` does not have — so the
handler itself raises `AttributeError` before reaching either `print` or the
`return EXIT.WRITE_IN_THREAD_FAILED` statement. The `some _` branch below is
what the handler would do if the attribute existed. -/
def save (state : List ℚ) (result : ℚ) (fp : FileHandle) :
    Except PyExc (FileHandle × Option EXIT) :=
  if fp.writeFails then
    match IOError_msg with
    | some _ => .ok (fp, some .WRITE_IN_THREAD_FAILED)
    | none => .error .attributeError
  else
    .ok (⟨fp.writeFails, fp.lines ++ [⟨state, result⟩]⟩, none)

/-- Embedding of `save_on_complete` (p6.py lines 79–83):

    def save_on_complete(future, state, thread_pool, fp):
        result = future.result()
        thread_pool.submit(save, state, result, fp)

`future.result()` re-raises the exception of a failed target invocation;
the raised exception aborts the done-callback (the executor logs and ignores
it), so no save task is submitted for that tuple. On success exactly one
save task for `(state, result)` is submitted to the thread pool. -/
def save_on_complete (outcome : Except PyExc ℚ) (state : List ℚ) :
    Option (List ℚ × ℚ) :=
  match outcome with
  | .error _ => none
  | .ok r => some (state, r)

/-- The thread pool draining its queue of save tasks: each task runs
`save` on the shared handle; a task that raises has the exception captured
in its (discarded) future and does not affect the other tasks. Returns the
final handle and the outcome of every task. -/
def run_thread_tasks (tasks : List (List ℚ × ℚ)) (fp : FileHandle) :
    FileHandle × List (Except PyExc (Option EXIT)) :=
  match tasks with
  | [] => (fp, [])
  | t :: ts =>
    match save t.1 t.2 fp with
    | .ok (fp', st) =>
      let r := run_thread_tasks ts fp'
      (r.1, .ok st :: r.2)
    | .error e =>
      let r := run_thread_tasks ts fp
      (r.1, .error e :: r.2)

/-- The dispatch-and-drain phase of `main` (p6.py lines 116–136): every
parameter tuple is submitted and its completion outcome (the target's return
value or its exception) is routed through `save_on_complete`; the resulting
save tasks are drained by the thread pool; `main` then closes the file and
returns `EXIT.OK` unconditionally — the futures of the save tasks, and hence
any `WRITE_IN_THREAD_FAILED` value or exception inside them, are never
inspected. -/
def run_study (items : List (List ℚ × Except PyExc ℚ)) (fp : FileHandle) :
    FileHandle × List (Except PyExc (Option EXIT)) × EXIT :=
  let tasks := items.filterMap (fun it => save_on_complete it.2 it.1)
  let r := run_thread_tasks tasks fp
  (r.1, r.2, .OK)

/-- Resolution of the target module, as `main` observes it: whether the
`importlib` import succeeded and whether the imported module has a `main`
attribute. -/
structure ModuleInfo where
  importable : Bool
  hasMain : Bool
deriving DecidableEq, Repr

/-- Embedding of `main` (p6.py lines 85–136). An import failure returns
`EXIT.NO_MODULE_NAMED_Y`. A module without a `main` attribute executes
`return EXIT.NO_MAIN` — but `NO_MAIN` is not a member of the `EXIT` enum, so
the attribute lookup raises `AttributeError` and `main` never returns a
status for this case. Otherwise the study runs to completion and `main`
returns `EXIT.OK` regardless of what happened to the individual writes. -/
def main_model (m : ModuleInfo) (items : List (List ℚ × Except PyExc ℚ))
    (fp : FileHandle) : Except PyExc (FileHandle × EXIT) :=
  if m.importable = false then .ok (fp, .NO_MODULE_NAMED_Y)
  else if m.hasMain = false then
    match EXIT.attr "NO_MAIN" with
    | some c => .ok (fp, c)
    | none => .error .attributeError
  else
    let r := run_study items fp
    .ok (r.1, r.2.2)

/-- Embedding of the compute worker count (p6.py line 113):

    cores = os.cpu_count()-1

for a machine reporting `cpu_count` processing units. There is no lower
clamp. -/
def compute_worker_count (cpu_count : ℤ) : ℤ :=
  cpu_count - 1

/-- The sequence the specification's Range Expander contract describes:
`start, start+step, start+2*step, …` with `floor((stop-start)/step)+1`
elements. Stated from the spec's words, to be compared with `float_range`. -/
def spec_range (start stop step : ℚ) : List ℚ :=
  (List.range ((⌊(stop - start) / step⌋).toNat + 1)).map
    (fun (i : ℕ) => start + (i : ℚ) * step)

/-! ### Evaluation and structure lemmas for the embedding -/

theorem float_range_of_ne (s e d : ℚ) (hd : d ≠ 0) :
    float_range s e d =
      .ok ((pyRange (pyInt (s / d)) (pyInt (e / d) + 1)).map
        (fun (x : ℤ) => (x : ℚ) * d)) := by
  simp [float_range, hd]

theorem pyInt_eval (q : ℚ) (n z : ℤ) (d : ℕ) (hn : q.num = n) (hd : q.den = d)
    (h : n.tdiv d = z) : pyInt q = z := by
  rw [pyInt, hn, hd, h]

theorem pyInt_eq_floor_of_nonneg (q : ℚ) (h : 0 ≤ q) : pyInt q = ⌊q⌋ := by
  rw [pyInt, Int.tdiv_eq_ediv (Rat.num_nonneg.mpr h) (Int.ofNat_nonneg _),
    Rat.floor_def]

theorem pyInt_eq_ceil_of_nonpos (q : ℚ) (h : q ≤ 0) : pyInt q = ⌈q⌉ := by
  have hneg : pyInt q = -pyInt (-q) := by
    rw [pyInt, pyInt, Rat.num_neg_eq_neg_num, Rat.den_neg_eq_den, Int.neg_tdiv,
      neg_neg]
  rw [hneg, pyInt_eq_floor_of_nonneg (-q) (by linarith), Int.floor_neg, neg_neg]

theorem pyInt_mono {a b : ℚ} (h : a ≤ b) : pyInt a ≤ pyInt b := by
  rcases le_or_lt 0 a with ha | ha
  · rw [pyInt_eq_floor_of_nonneg a ha, pyInt_eq_floor_of_nonneg b (le_trans ha h)]
    exact Int.floor_le_floor h
  · rcases le_or_lt 0 b with hb | hb
    · rw [pyInt_eq_ceil_of_nonpos a ha.le, pyInt_eq_floor_of_nonneg b hb]
      have h1 : ⌈a⌉ ≤ 0 := Int.ceil_le.mpr (by exact_mod_cast ha.le)
      have h2 : 0 ≤ ⌊b⌋ := Int.floor_nonneg.mpr hb
      omega
    · rw [pyInt_eq_ceil_of_nonpos a ha.le, pyInt_eq_ceil_of_nonpos b hb.le]
      exact Int.ceil_le_ceil h

theorem pyInt_intCast (k : ℤ) : pyInt (k : ℚ) = k := by
  rw [pyInt, Rat.num_intCast, Rat.den_intCast, Int.natCast_one, Int.tdiv_one]

theorem pyRange_length (a b : ℤ) : (pyRange a b).length = (b - a).toNat := by
  rw [pyRange, List.length_map, List.length_range]

theorem pyRange_getElem? (a b : ℤ) (i : ℕ) (hi : i < (b - a).toNat) :
    (pyRange a b)[i]? = some (a + (i : ℤ)) := by
  rw [pyRange, List.getElem?_map, List.getElem?_range hi]
  rfl

theorem pyRange_pairwise_lt (a b : ℤ) : (pyRange a b).Pairwise (· < ·) := by
  rw [pyRange]
  refine List.Pairwise.map _ (fun x y hxy => ?_) (List.pairwise_lt_range _)
  omega

theorem float_range_ok_eq (s e d : ℚ) (hd : d ≠ 0) {l : List ℚ}
    (h : float_range s e d = .ok l) :
    l = (pyRange (pyInt (s / d)) (pyInt (e / d) + 1)).map
      (fun (x : ℤ) => (x : ℚ) * d) := by
  rw [float_range_of_ne s e d hd] at h
  injection h with hl
  exact hl.symm

theorem float_range_length (s e d : ℚ) (hd : d ≠ 0) {l : List ℚ}
    (h : float_range s e d = .ok l) :
    l.length = (pyInt (e / d) + 1 - pyInt (s / d)).toNat := by
  rw [float_range_ok_eq s e d hd h, List.length_map, pyRange_length]

theorem float_range_getElem? (s e d : ℚ) (hd : d ≠ 0) {l : List ℚ}
    (h : float_range s e d = .ok l) (i : ℕ) (hi : i < l.length) :
    l[i]? = some (((pyInt (s / d) + (i : ℤ) : ℤ) : ℚ) * d) := by
  rw [float_range_length s e d hd h] at hi
  rw [float_range_ok_eq s e d hd h, List.getElem?_map, pyRange_getElem? _ _ i hi]
  rfl

theorem float_range_head?_of_pos (s e d : ℚ) (hd : d ≠ 0) {l : List ℚ}
    (h : float_range s e d = .ok l) (h0 : 0 < l.length) :
    l.head? = some ((pyInt (s / d) : ℚ) * d) := by
  have := float_range_getElem? s e d hd h 0 h0
  rw [List.head?_eq_getElem?, this]
  norm_num

theorem float_range_head? (s e d : ℚ) (hd : d ≠ 0)
    (hk : pyInt (s / d) ≤ pyInt (e / d)) {l : List ℚ}
    (h : float_range s e d = .ok l) :
    l.head? = some ((pyInt (s / d) : ℚ) * d) := by
  have hlen := float_range_length s e d hd h
  exact float_range_head?_of_pos s e d hd h (by rw [hlen]; omega)

theorem float_range_pairwise (s e d : ℚ) (hd : 0 < d) {l : List ℚ}
    (h : float_range s e d = .ok l) : l.Pairwise (· < ·) := by
  rw [float_range_ok_eq s e d hd.ne' h]
  refine List.Pairwise.map _ (fun x y hxy => ?_) (pyRange_pairwise_lt _ _)
  exact mul_lt_mul_of_pos_right (by exact_mod_cast hxy) hd

theorem float_range_nodup (s e d : ℚ) (hd : d ≠ 0) {l : List ℚ}
    (h : float_range s e d = .ok l) : l.Nodup := by
  rw [float_range_ok_eq s e d hd h]
  have hinj : Function.Injective (fun x : ℤ => (x : ℚ) * d) := by
    intro x y hxy
    have := mul_right_cancel₀ hd hxy
    exact_mod_cast this
  exact List.Nodup.map hinj ((pyRange_pairwise_lt _ _).imp fun hxy => ne_of_lt hxy)

/-! ### Claims about the Range Expander (`float_range`) -/

/-- Claim C1, counterexample: at `(start, stop, step) = (1, 2, 2)` the code
returns `[0, 2]`, while the sequence the claim describes — terms
`start, start+step, …` bounded by `stop`, with `floor((stop-start)/step)+1 = 1`
elements and first element `start` — is `[1]`. The code's result neither
starts at `start` nor has the claimed length. -/
theorem float_range_ce_not_start_anchored :
    float_range 1 2 2 = .ok [0, 2] ∧ spec_range 1 2 2 = [1] ∧
      float_range 1 2 2 ≠ .ok (spec_range 1 2 2) := by
  have h1 : float_range 1 2 2 = .ok [0, 2] := by
    rw [float_range_of_ne 1 2 2 (by norm_num),
      pyInt_eval ((1:ℚ)/2) 1 0 2 (by norm_num) (by norm_num) (by decide),
      pyInt_eval ((2:ℚ)/2) 1 1 1 (by norm_num) (by norm_num) (by decide)]
    have hr : pyRange 0 (1 + 1) = [0, 1] := by decide
    rw [hr]
    norm_num [List.map]
  have h2 : spec_range 1 2 2 = [1] := by
    rw [spec_range]
    have hf : ⌊((2:ℚ) - 1) / 2⌋ = 0 := by norm_num
    rw [hf]
    norm_num [List.map]
  refine ⟨h1, h2, ?_⟩
  rw [h1, h2]
  intro hcontra
  injection hcontra with h
  simp at h

/-- Claim C1 (amended): for every `(start, stop, step)` with `step > 0` and
`start ≤ stop`, `float_range` returns the nonempty strictly increasing
sequence of multiples `k*step` for the consecutive integers `k` from
`int(start/step)` up to `int(stop/step)` (truncation toward zero); its length
is `int(stop/step) - int(start/step) + 1` and its first element is
`int(start/step)*step`, which equals `start` whenever `start` is an integer
multiple of `step`. -/
theorem float_range_characterisation (s e d : ℚ) (hd : 0 < d) (hse : s ≤ e) :
    ∃ l : List ℚ,
      float_range s e d = .ok l ∧
      l ≠ [] ∧
      l.length = (pyInt (e / d) + 1 - pyInt (s / d)).toNat ∧
      (∀ i : ℕ, i < l.length →
        l[i]? = some (((pyInt (s / d) + (i : ℤ) : ℤ) : ℚ) * d)) ∧
      l.head? = some ((pyInt (s / d) : ℚ) * d) ∧
      l.Pairwise (· < ·) ∧
      ((∃ k : ℤ, s = (k : ℚ) * d) → l.head? = some s) := by
  obtain ⟨l, hl⟩ : ∃ l, float_range s e d = .ok l :=
    ⟨_, float_range_of_ne s e d hd.ne'⟩
  have hdiv : s / d ≤ e / d := by gcongr
  have hk : pyInt (s / d) ≤ pyInt (e / d) := pyInt_mono hdiv
  refine ⟨l, hl, ?_, float_range_length s e d hd.ne' hl,
    float_range_getElem? s e d hd.ne' hl,
    float_range_head? s e d hd.ne' hk hl,
    float_range_pairwise s e d hd hl, ?_⟩
  · intro hnil
    have hlen := float_range_length s e d hd.ne' hl
    rw [hnil] at hlen
    simp only [List.length_nil] at hlen
    omega
  · rintro ⟨k, hk'⟩
    have hsd : s / d = (k : ℚ) := by
      rw [hk']
      exact mul_div_cancel_right₀ _ hd.ne'
    rw [float_range_head? s e d hd.ne' hk hl, hsd, pyInt_intCast, ← hk']

/-- Witness for `float_range_characterisation` at `(0, 1, 1/4)`. -/
theorem float_range_characterisation_witness :
    ∃ l : List ℚ,
      float_range 0 1 (1/4) = .ok l ∧
      l ≠ [] ∧
      l.length = (pyInt ((1:ℚ) / (1/4)) + 1 - pyInt ((0:ℚ) / (1/4))).toNat ∧
      (∀ i : ℕ, i < l.length →
        l[i]? = some (((pyInt ((0:ℚ) / (1/4)) + (i : ℤ) : ℤ) : ℚ) * (1/4))) ∧
      l.head? = some ((pyInt ((0:ℚ) / (1/4)) : ℚ) * (1/4)) ∧
      l.Pairwise (· < ·) ∧
      ((∃ k : ℤ, (0:ℚ) = (k : ℚ) * (1/4)) → l.head? = some 0) :=
  float_range_characterisation 0 1 (1/4) (by norm_num) (by norm_num)

/-- Claim C2, counterexample: `float_range(0, 5, -1)` (step ≤ 0) and
`float_range(5, 0, 1)` (start > stop) both return a list — the empty list —
instead of failing; there is no `InvalidRangeError` anywhere in the code. -/
theorem float_range_ce_no_invalid_range_error :
    float_range 0 5 (-1) = .ok [] ∧ float_range 5 0 1 = .ok [] := by
  constructor
  · rw [float_range_of_ne 0 5 (-1) (by norm_num),
      pyInt_eval ((0:ℚ)/(-1)) 0 0 1 (by norm_num) (by norm_num) (by decide),
      pyInt_eval ((5:ℚ)/(-1)) (-5) (-5) 1 (by norm_num) (by norm_num) (by decide)]
    have hr : pyRange 0 (-5 + 1) = [] := by decide
    rw [hr]
    rfl
  · rw [float_range_of_ne 5 0 1 (by norm_num),
      pyInt_eval ((5:ℚ)/1) 5 5 1 (by norm_num) (by norm_num) (by decide),
      pyInt_eval ((0:ℚ)/1) 0 0 1 (by norm_num) (by norm_num) (by decide)]
    have hr : pyRange 5 (0 + 1) = [] := by decide
    rw [hr]
    rfl

/-- Claim C2 (amended): `float_range` performs no range validation. With
`step = 0` it raises `ZeroDivisionError` (from `start/step`); with any
`step ≠ 0` — including `step < 0` or `start > stop` — it returns a list
normally rather than raising anything. -/
theorem float_range_no_validation (s e d : ℚ) :
    (d ≠ 0 → ∃ l, float_range s e d = Except.ok l) ∧
    float_range s e 0 = .error .zeroDivisionError := by
  refine ⟨fun hd => ⟨_, float_range_of_ne s e d hd⟩, ?_⟩
  simp [float_range]

/-- Witness for `float_range_no_validation` at `(0, 5, -1)` and `(0, 5, 0)`. -/
theorem float_range_no_validation_witness :
    (∃ l, float_range 0 5 (-1) = Except.ok l) ∧
    float_range 0 5 0 = .error .zeroDivisionError :=
  ⟨(float_range_no_validation 0 5 (-1)).1 (by norm_num),
   (float_range_no_validation 0 5 0).2⟩

/-- Claim C9 (confirmed): `float_range(0, 1, 0.25)` returns exactly the five
values `[0, 0.25, 0.5, 0.75, 1.0]`, and `float_range(0, 1, 0.3)` returns
exactly `[0, 0.3, 0.6, 0.9]`, the endpoint `1.0` excluded. (The embedding
computes with exact rationals; `int(1/0.3)` evaluates to `3` both for exact
rationals and for IEEE doubles, where `1/0.3 ≈ 3.3333333333333335`.) -/
theorem float_range_spec_examples :
    float_range 0 1 (1/4) = .ok [0, 1/4, 1/2, 3/4, 1] ∧
    float_range 0 1 (3/10) = .ok [0, 3/10, 3/5, 9/10] := by
  constructor
  · rw [float_range_of_ne 0 1 (1/4) (by norm_num),
      pyInt_eval ((0:ℚ)/(1/4)) 0 0 1 (by norm_num) (by norm_num) (by decide),
      pyInt_eval ((1:ℚ)/(1/4)) 4 4 1 (by norm_num) (by norm_num) (by decide)]
    have hr : pyRange 0 (4 + 1) = [0, 1, 2, 3, 4] := by decide
    rw [hr]
    norm_num [List.map]
  · rw [float_range_of_ne 0 1 (3/10) (by norm_num),
      pyInt_eval ((0:ℚ)/(3/10)) 0 0 1 (by norm_num) (by norm_num) (by decide),
      pyInt_eval ((1:ℚ)/(3/10)) 10 3 3 (by norm_num) (by norm_num) (by decide)]
    have hr : pyRange 0 (3 + 1) = [0, 1, 2, 3] := by decide
    rw [hr]
    norm_num [List.map]

/-- Claim C10 (confirmed): for every `step > 0`, `float_range` returns the
sequence `k*step` for consecutive integers `k` from `int(start/step)` to
`int(stop/step)` (truncation toward zero); when nonempty (in particular when
`start ≤ stop`) its first element is `int(start/step)*step`, which differs
from `start` whenever `start` is not an integer multiple of `step`. -/
theorem float_range_starts_at_trunc_multiple (s e d : ℚ) (hd : 0 < d) :
    ∃ l : List ℚ,
      float_range s e d = .ok l ∧
      l.length = (pyInt (e / d) + 1 - pyInt (s / d)).toNat ∧
      (∀ i : ℕ, i < l.length →
        l[i]? = some (((pyInt (s / d) + (i : ℤ) : ℤ) : ℚ) * d)) ∧
      (s ≤ e → l.head? = some ((pyInt (s / d) : ℚ) * d)) ∧
      ((∀ k : ℤ, s ≠ (k : ℚ) * d) → l.head? ≠ some s) := by
  obtain ⟨l, hl⟩ : ∃ l, float_range s e d = .ok l :=
    ⟨_, float_range_of_ne s e d hd.ne'⟩
  refine ⟨l, hl, float_range_length s e d hd.ne' hl,
    float_range_getElem? s e d hd.ne' hl, fun hse => ?_, fun hnk hcontra => ?_⟩
  · have hdiv : s / d ≤ e / d := by gcongr
    exact float_range_head? s e d hd.ne' (pyInt_mono hdiv) hl
  · rcases Nat.eq_zero_or_pos l.length with h0 | h0
    · rw [List.length_eq_zero] at h0
      rw [h0] at hcontra
      simp at hcontra
    · rw [float_range_head?_of_pos s e d hd.ne' hl h0] at hcontra
      injection hcontra with hx
      exact hnk _ hx.symm

/-- Witness for `float_range_starts_at_trunc_multiple` at the claim's own
example `(0.5, 1.0, 0.3)`: the returned list begins at `0.3`, below `start`. -/
theorem float_range_starts_at_trunc_multiple_witness :
    (0:ℚ) < 3/10 ∧
    ∃ l : List ℚ,
      float_range (1/2) 1 (3/10) = .ok l ∧
      l.length = (pyInt ((1:ℚ) / (3/10)) + 1 - pyInt ((1:ℚ)/2 / (3/10))).toNat ∧
      (∀ i : ℕ, i < l.length →
        l[i]? = some (((pyInt ((1:ℚ)/2 / (3/10)) + (i : ℤ) : ℤ) : ℚ) * (3/10))) ∧
      ((1:ℚ)/2 ≤ 1 → l.head? = some ((pyInt ((1:ℚ)/2 / (3/10)) : ℚ) * (3/10))) ∧
      ((∀ k : ℤ, (1:ℚ)/2 ≠ (k : ℚ) * (3/10)) → l.head? ≠ some (1/2)) :=
  ⟨by norm_num, float_range_starts_at_trunc_multiple (1/2) 1 (3/10) (by norm_num)⟩

/-! ### Claims about the Parameter Space Builder (`yield_parameter_space`) -/

theorem flatMap_singletons (r : List ℚ) :
    (r.flatMap fun x => [[x]]) = r.map (fun b => [b]) := by
  induction r with
  | nil => rfl
  | cons b bs ih => simp only [List.flatMap_cons, List.map_cons, ih]; rfl

theorem pyProduct_single (r : List ℚ) : pyProduct [r] = r.map (fun b => [b]) := by
  rw [show pyProduct [r] = r.flatMap (fun x => [[x]]) from rfl, flatMap_singletons]

theorem pyProduct_two (r1 r2 : List ℚ) :
    pyProduct [r1, r2] = r1.flatMap (fun a => r2.map (fun b => [a, b])) := by
  have h : pyProduct [r1, r2] =
      r1.flatMap (fun x => (pyProduct [r2]).map (fun t => x :: t)) := rfl
  rw [h, pyProduct_single]
  simp only [List.map_map]
  rfl

theorem nodup_count_eq_one {l : List (List ℚ)} {x : List ℚ} (hn : l.Nodup)
    (hx : x ∈ l) : l.count x = 1 := by
  induction l with
  | nil => simp at hx
  | cons y ys ih =>
    rw [List.count_cons]
    rcases List.mem_cons.mp hx with rfl | hx'
    · have hy : ys.count x = 0 :=
        List.count_eq_zero.mpr (List.nodup_cons.mp hn).1
      simp [hy]
    · have hne : x ≠ y := by
        rintro rfl
        exact (List.nodup_cons.mp hn).1 hx'
      rw [ih (List.nodup_cons.mp hn).2 hx']
      have hyx : ¬ y = x := fun hyx => hne hyx.symm
      simp [hne, hyx]

theorem pyProduct_two_nodup {r1 r2 : List ℚ} (h1 : r1.Nodup) (h2 : r2.Nodup) :
    (pyProduct [r1, r2]).Nodup := by
  rw [pyProduct_two]
  refine List.nodup_flatMap.mpr ⟨fun a _ => ?_, ?_⟩
  · refine List.Nodup.map ?_ h2
    intro x y hxy
    simpa using hxy
  · refine h1.imp ?_
    intro a a' haa'
    intro x hx hx'
    rcases List.mem_map.mp hx with ⟨b, _, rfl⟩
    rcases List.mem_map.mp hx' with ⟨b', _, hbb'⟩
    exact haa' (by injection hbb'.symm)

theorem pyProduct_two_mem {r1 r2 : List ℚ} {x : List ℚ} :
    x ∈ pyProduct [r1, r2] ↔ ∃ a ∈ r1, ∃ b ∈ r2, x = [a, b] := by
  rw [pyProduct_two]
  simp only [List.mem_flatMap, List.mem_map]
  constructor
  · rintro ⟨a, ha, b, hb, rfl⟩
    exact ⟨a, ha, b, hb, rfl⟩
  · rintro ⟨a, ha, b, hb, rfl⟩
    exact ⟨a, ha, b, hb, rfl⟩

theorem pyProduct_two_count {r1 r2 : List ℚ} (h1 : r1.Nodup) (h2 : r2.Nodup)
    {a b : ℚ} (ha : a ∈ r1) (hb : b ∈ r2) :
    (pyProduct [r1, r2]).count [a, b] = 1 :=
  nodup_count_eq_one (pyProduct_two_nodup h1 h2)
    (pyProduct_two_mem.mpr ⟨a, ha, b, hb, rfl⟩)

theorem yield_parameter_space_two (t1 t2 : ℚ × ℚ × ℚ) (r1 r2 : List ℚ)
    (h1 : float_range t1.1 t1.2.1 t1.2.2 = .ok r1)
    (h2 : float_range t2.1 t2.2.1 t2.2.2 = .ok r2) :
    yield_parameter_space [t1, t2] = .ok (pyProduct [r1, r2]) := by
  simp only [yield_parameter_space, expand_axes, h1, h2]
  rfl

/-- Claim C3 (confirmed): for an ordered mapping of two axes whose expanded
ranges each contain 3 values, the code yields exactly the 9 tuples, pairwise
distinct, covering every ordered pair of axis values exactly once, with the
last-declared axis iterating fastest (the explicit enumeration below). -/
theorem yield_parameter_space_3x3 (s1 e1 d1 s2 e2 d2 : ℚ) (r1 r2 : List ℚ)
    (hd1 : d1 ≠ 0) (hd2 : d2 ≠ 0)
    (h1 : float_range s1 e1 d1 = .ok r1) (h2 : float_range s2 e2 d2 = .ok r2)
    (hl1 : r1.length = 3) (hl2 : r2.length = 3) :
    ∃ a1 a2 a3 b1 b2 b3 : ℚ,
      r1 = [a1, a2, a3] ∧ r2 = [b1, b2, b3] ∧
      yield_parameter_space [(s1, e1, d1), (s2, e2, d2)] =
        .ok [[a1, b1], [a1, b2], [a1, b3],
             [a2, b1], [a2, b2], [a2, b3],
             [a3, b1], [a3, b2], [a3, b3]] ∧
      (pyProduct [r1, r2]).length = 9 ∧
      (pyProduct [r1, r2]).Nodup ∧
      (∀ a ∈ r1, ∀ b ∈ r2, (pyProduct [r1, r2]).count [a, b] = 1) ∧
      (∀ x ∈ pyProduct [r1, r2], ∃ a ∈ r1, ∃ b ∈ r2, x = [a, b]) := by
  have hn1 : r1.Nodup := float_range_nodup s1 e1 d1 hd1 h1
  have hn2 : r2.Nodup := float_range_nodup s2 e2 d2 hd2 h2
  obtain ⟨a1, a2, a3, rfl⟩ := List.length_eq_three.mp hl1
  obtain ⟨b1, b2, b3, rfl⟩ := List.length_eq_three.mp hl2
  refine ⟨a1, a2, a3, b1, b2, b3, rfl, rfl, ?_, ?_,
    pyProduct_two_nodup hn1 hn2,
    fun a ha b hb => pyProduct_two_count hn1 hn2 ha hb,
    fun x hx => pyProduct_two_mem.mp hx⟩
  · rw [yield_parameter_space_two (s1, e1, d1) (s2, e2, d2) _ _ h1 h2]
    rfl
  · rfl

theorem float_range_eval_0_2_1 : float_range 0 2 1 = .ok [0, 1, 2] := by
  rw [float_range_of_ne 0 2 1 (by norm_num),
    pyInt_eval ((0:ℚ)/1) 0 0 1 (by norm_num) (by norm_num) (by decide),
    pyInt_eval ((2:ℚ)/1) 2 2 1 (by norm_num) (by norm_num) (by decide)]
  have hr : pyRange 0 (2 + 1) = [0, 1, 2] := by decide
  rw [hr]
  norm_num [List.map]

theorem float_range_eval_0_1_half : float_range 0 1 (1/2) = .ok [0, 1/2, 1] := by
  rw [float_range_of_ne 0 1 (1/2) (by norm_num),
    pyInt_eval ((0:ℚ)/(1/2)) 0 0 1 (by norm_num) (by norm_num) (by decide),
    pyInt_eval ((1:ℚ)/(1/2)) 2 2 1 (by norm_num) (by norm_num) (by decide)]
  have hr : pyRange 0 (2 + 1) = [0, 1, 2] := by decide
  rw [hr]
  norm_num [List.map]

/-- Witness for `yield_parameter_space_3x3` on the axes `(0, 2, 1)` and
`(0, 1, 1/2)`, whose expansions `[0, 1, 2]` and `[0, 1/2, 1]` have 3 values
each. -/
theorem yield_parameter_space_3x3_witness :
    ∃ a1 a2 a3 b1 b2 b3 : ℚ,
      ([0, 1, 2] : List ℚ) = [a1, a2, a3] ∧
      ([0, 1/2, 1] : List ℚ) = [b1, b2, b3] ∧
      yield_parameter_space [(0, 2, 1), (0, 1, 1/2)] =
        .ok [[a1, b1], [a1, b2], [a1, b3],
             [a2, b1], [a2, b2], [a2, b3],
             [a3, b1], [a3, b2], [a3, b3]] ∧
      (pyProduct [[0, 1, 2], [0, 1/2, 1]]).length = 9 ∧
      (pyProduct [[0, 1, 2], [0, 1/2, 1]]).Nodup ∧
      (∀ a ∈ ([0, 1, 2] : List ℚ), ∀ b ∈ ([0, 1/2, 1] : List ℚ),
        (pyProduct [[0, 1, 2], [0, 1/2, 1]]).count [a, b] = 1) ∧
      (∀ x ∈ pyProduct [[0, 1, 2], [0, 1/2, 1]],
        ∃ a ∈ ([0, 1, 2] : List ℚ), ∃ b ∈ ([0, 1/2, 1] : List ℚ), x = [a, b]) :=
  yield_parameter_space_3x3 0 2 1 0 1 (1/2) [0, 1, 2] [0, 1/2, 1]
    (by norm_num) (by norm_num) float_range_eval_0_2_1 float_range_eval_0_1_half
    rfl rfl

/-! ### Claims about the Result Sink and the Study Orchestrator -/

theorem run_thread_tasks_ok (tasks : List (List ℚ × ℚ)) (l : List ResultRecord) :
    run_thread_tasks tasks ⟨false, l⟩ =
      (⟨false, l ++ tasks.map (fun t => ⟨t.1, t.2⟩)⟩,
        tasks.map (fun _ => .ok none)) := by
  induction tasks generalizing l with
  | nil => simp [run_thread_tasks]
  | cons t ts ih =>
    simp [run_thread_tasks, save, ih, List.append_assoc]

theorem run_study_no_io_failure (items : List (List ℚ × Except PyExc ℚ)) :
    run_study items ⟨false, []⟩ =
      (⟨false, (items.filterMap (fun it => save_on_complete it.2 it.1)).map
          (fun p => ⟨p.1, p.2⟩)⟩,
        (items.filterMap (fun it => save_on_complete it.2 it.1)).map
          (fun _ => .ok none),
        .OK) := by
  simp [run_study, run_thread_tasks_ok]

theorem filterMap_all_ok_length (xs : List (List ℚ × Except PyExc ℚ))
    (h : ∀ it ∈ xs, ∃ r : ℚ, it.2 = .ok r) :
    (xs.filterMap (fun it => save_on_complete it.2 it.1)).length = xs.length := by
  induction xs with
  | nil => rfl
  | cons x xs ih =>
    obtain ⟨r, hr⟩ := h x (List.mem_cons_self x xs)
    have ih' := ih (fun it hit => h it (List.mem_cons_of_mem _ hit))
    rw [List.filterMap_cons, hr]
    show ((x.1, r) ::
        xs.filterMap (fun it => save_on_complete it.2 it.1)).length = xs.length + 1
    rw [List.length_cons, ih']

theorem state_of_mem_filterMap {items : List (List ℚ × Except PyExc ℚ)}
    {p : List ℚ × ℚ}
    (hp : p ∈ items.filterMap (fun it => save_on_complete it.2 it.1)) :
    ∃ it ∈ items, it.1 = p.1 := by
  rcases List.mem_filterMap.mp hp with ⟨it, hit, hsoc⟩
  cases h2 : it.2 with
  | error ex =>
    rw [h2] at hsoc
    simp [save_on_complete] at hsoc
  | ok r =>
    rw [h2] at hsoc
    simp only [save_on_complete, Option.some.injEq] at hsoc
    exact ⟨it, hit, by rw [← hsoc]⟩

/-- Claim C4 (confirmed): when exactly one submitted tuple's invocation
raises (the middle item below) and the output stream itself is healthy,
the drained study writes no record for the failed tuple, writes the records
of all other tuples (count `N - 1`), and `main` continues to completion,
returning `EXIT.OK`. -/
theorem study_isolated_failure (pre post : List (List ℚ × Except PyExc ℚ))
    (t : List ℚ) (e : PyExc)
    (hpre : ∀ it ∈ pre, ∃ r : ℚ, it.2 = Except.ok r)
    (hpost : ∀ it ∈ post, ∃ r : ℚ, it.2 = Except.ok r)
    (ht : ∀ it ∈ pre ++ post, it.1 ≠ t) :
    (run_study (pre ++ [(t, Except.error e)] ++ post) ⟨false, []⟩).1.lines.length
        = (pre ++ [(t, Except.error e)] ++ post).length - 1 ∧
    (∀ rec ∈ (run_study (pre ++ [(t, Except.error e)] ++ post)
        ⟨false, []⟩).1.lines, rec.state ≠ t) ∧
    (∀ it ∈ pre ++ post, ∀ r : ℚ, it.2 = Except.ok r →
        (⟨it.1, r⟩ : ResultRecord) ∈
          (run_study (pre ++ [(t, Except.error e)] ++ post)
            ⟨false, []⟩).1.lines) ∧
    (run_study (pre ++ [(t, Except.error e)] ++ post) ⟨false, []⟩).2.2
        = EXIT.OK := by
  have hsplit : (pre ++ [(t, Except.error e)] ++ post).filterMap
        (fun (it : List ℚ × Except PyExc ℚ) => save_on_complete it.2 it.1) =
      pre.filterMap (fun it => save_on_complete it.2 it.1) ++
        post.filterMap (fun it => save_on_complete it.2 it.1) := by
    rw [List.filterMap_append, List.filterMap_append]
    show _ ++ ([] : List (List ℚ × ℚ)) ++ _ = _
    rw [List.append_nil]
  rw [run_study_no_io_failure]
  refine ⟨?_, ?_, ?_, rfl⟩
  · show (List.map _ _).length = _
    rw [List.length_map, hsplit, List.length_append,
      filterMap_all_ok_length pre hpre, filterMap_all_ok_length post hpost]
    simp only [List.length_append, List.length_cons, List.length_nil]
    omega
  · intro rec hrec
    rw [hsplit] at hrec
    rcases List.mem_map.mp hrec with ⟨p, hp, rfl⟩
    rcases List.mem_append.mp hp with hp' | hp'
    · rcases state_of_mem_filterMap hp' with ⟨it, hit, hst⟩
      have hne := ht it (List.mem_append_left _ hit)
      show p.1 ≠ t
      rw [← hst]
      exact hne
    · rcases state_of_mem_filterMap hp' with ⟨it, hit, hst⟩
      have hne := ht it (List.mem_append_right _ hit)
      show p.1 ≠ t
      rw [← hst]
      exact hne
  · intro it hit r hr
    have hF : save_on_complete it.2 it.1 = some (it.1, r) := by
      rw [hr]
      rfl
    show (⟨it.1, r⟩ : ResultRecord) ∈ List.map _ _
    rw [hsplit]
    rcases List.mem_append.mp hit with h' | h'
    · exact List.mem_map.mpr ⟨(it.1, r),
        List.mem_append_left _ (List.mem_filterMap.mpr ⟨it, h', hF⟩), rfl⟩
    · exact List.mem_map.mpr ⟨(it.1, r),
        List.mem_append_right _ (List.mem_filterMap.mpr ⟨it, h', hF⟩), rfl⟩

/-- Witness for `study_isolated_failure`: three tuples `[0], [1], [2]`, the
middle one raising, the other two returning `1` and `5`. -/
theorem study_isolated_failure_witness :
    (run_study [(([0] : List ℚ), (Except.ok 1 : Except PyExc ℚ)),
        ([1], Except.error PyExc.targetError), ([2], Except.ok 5)]
      ⟨false, []⟩).1.lines.length = 2 ∧
    (∀ rec ∈ (run_study [(([0] : List ℚ), (Except.ok 1 : Except PyExc ℚ)),
        ([1], Except.error PyExc.targetError), ([2], Except.ok 5)]
      ⟨false, []⟩).1.lines, rec.state ≠ [1]) ∧
    (∀ it ∈ [(([0] : List ℚ), (Except.ok 1 : Except PyExc ℚ)),
        ([2], Except.ok 5)], ∀ r : ℚ, it.2 = Except.ok r →
        (⟨it.1, r⟩ : ResultRecord) ∈
          (run_study [(([0] : List ℚ), (Except.ok 1 : Except PyExc ℚ)),
            ([1], Except.error PyExc.targetError), ([2], Except.ok 5)]
            ⟨false, []⟩).1.lines) ∧
    (run_study [(([0] : List ℚ), (Except.ok 1 : Except PyExc ℚ)),
        ([1], Except.error PyExc.targetError), ([2], Except.ok 5)]
      ⟨false, []⟩).2.2 = EXIT.OK := by
  exact study_isolated_failure [([0], Except.ok 1)] [([2], Except.ok 5)] [1]
    PyExc.targetError
    (by
      intro it hit
      rw [List.mem_singleton] at hit
      exact ⟨1, by rw [hit]⟩)
    (by
      intro it hit
      rw [List.mem_singleton] at hit
      exact ⟨5, by rw [hit]⟩)
    (by
      intro it hit
      rcases List.mem_append.mp hit with h' | h' <;>
        rw [List.mem_singleton] at h' <;> subst h'
      · show ¬([0] : List ℚ) = [1]
        intro hc
        injection hc with h1 _
        norm_num at h1
      · show ¬([2] : List ℚ) = [1]
        intro hc
        injection hc with h1 _
        norm_num at h1)

/-- Claim C5 (code_bug): when `fp.write` raises `IOError`, the handler's
first statement `print(e.msg)` itself raises `AttributeError` (`OSError`
has no attribute `msg`), so `save` neither logs the failure nor returns
`EXIT.WRITE_IN_THREAD_FAILED` — the write task dies with an exception. -/
theorem save_io_error_attribute_error :
    save [0] 0 ⟨true, []⟩ = .error .attributeError ∧
    save [0] 0 ⟨true, []⟩ ≠ .ok (⟨true, []⟩, some EXIT.WRITE_IN_THREAD_FAILED) := by
  constructor
  · rfl
  · intro h
    exact absurd h (by decide)

/-- Claim C6 (code_bug): a run in which the single record's write fails (the
save task raises and its future is discarded) still ends with `main`
returning `EXIT.OK`, not `EXIT.WRITE_IN_THREAD_FAILED`; the record is lost
(`lines = []`). -/
theorem main_ok_despite_write_failure :
    (run_study [([0], .ok 0)] ⟨true, []⟩).2.1
      = [Except.error PyExc.attributeError] ∧
    main_model ⟨true, true⟩ [([0], .ok 0)] ⟨true, []⟩ = .ok (⟨true, []⟩, .OK) ∧
    EXIT.OK ≠ EXIT.WRITE_IN_THREAD_FAILED := by
  refine ⟨rfl, rfl, by decide⟩

/-- Claim C7 (code_bug): for an importable module without a `main` attribute,
`main` executes `return EXIT.NO_MAIN`; `NO_MAIN` is not a member of the
`EXIT` enum, so the lookup raises `AttributeError` and the declared
`NO_MAIN_IN_MODULE` status (value 2) is never returned. -/
theorem main_no_main_attribute_error :
    main_model ⟨true, false⟩ [] ⟨false, []⟩ = .error .attributeError ∧
    EXIT.attr "NO_MAIN" = none ∧
    EXIT.attr "NO_MAIN_IN_MODULE" = some .NO_MAIN_IN_MODULE ∧
    EXIT.NO_MAIN_IN_MODULE.value = 2 := by
  refine ⟨?_, ?_, ?_, rfl⟩ <;> rfl

/-- Claim C8, counterexample: on a single-unit machine (`os.cpu_count() = 1`)
the configured compute worker count is `0`, not the claimed minimum of 1. -/
theorem compute_worker_count_ce_single_unit :
    compute_worker_count 1 = 0 ∧ ¬ (1 ≤ compute_worker_count 1) := by decide

/-- Claim C8 (amended): the compute worker count is exactly
`cpu_count - 1` with no lower clamp: it is at least 1 precisely when the
machine has at least 2 processing units. -/
theorem compute_worker_count_no_clamp (n : ℤ) :
    compute_worker_count n = n - 1 ∧ (1 ≤ compute_worker_count n ↔ 2 ≤ n) := by
  unfold compute_worker_count
  omega
